import Mathlib

/-!
Verification development for the video-generation orchestration core of the
NOTEBOOK_LM_VIDEO repository: a shallow embedding of
`backend/app/core/constants.py`, `backend/app/core/gemini_client.py`,
`backend/app/workers/background_tasks.py` and
`backend/app/routers/generation.py`, together with theorems settling the
stated behavioural properties.

Modelling conventions:
* Wall-clock instants and audio durations are exact rationals (`ℚ`);
  Python float expressions are idealized to exact arithmetic.
* Calls to external capabilities (the Gemini SDK, the Kokoro TTS engine,
  ffmpeg, the filesystem) are represented by oracle values describing the
  outcome of the call; the embedded code is a total function of the oracles.
* Python exceptions are `Except String` values; an exception message is the
  `str(e)` of the raised exception.
-/

namespace NLV

/-- Status values of a video record, from `VideoStatus` in
`core/constants.py` (the `cancelled` member is never assigned by the code
paths modelled here). -/
inductive VStatus
  | pending
  | processing
  | completed
  | failed
  deriving DecidableEq, Repr

/-- `RateLimits.RPM_LIMIT` from `core/constants.py`. -/
def RPM_LIMIT : ℕ := 15

/-- `RateLimits.REQUEST_INTERVAL` from `core/constants.py` (60/15 = 4 s). -/
def REQUEST_INTERVAL : ℚ := 4

/-- `RateLimits.DAILY_TOKEN_LIMIT` from `core/constants.py`. -/
def DAILY_TOKEN_LIMIT : ℕ := 1000000

/-- `Timeouts.GEMINI_REQUEST` from `core/constants.py` (seconds). -/
def GEMINI_REQUEST : ℕ := 30

/-- `settings.VIDEO_FPS` default from `app/config.py`. -/
def VIDEO_FPS : ℕ := 30

namespace VideoConfig

/-- `VideoConfig.FPS` in `workers/background_tasks.py` (reads
`settings.VIDEO_FPS`). -/
def FPS : ℕ := VIDEO_FPS

/-- `VideoConfig.get_num_concepts` in `workers/background_tasks.py`:
```
if duration <= 60: return 5
elif duration <= 180: return int(duration / 30)
else: return int(duration / 45)
```
`duration` is a nonnegative integer (`int(audio_duration)`), so Python's
`int(x / k)` is floor division. -/
def get_num_concepts (duration : ℕ) : ℕ :=
  if duration ≤ 60 then 5
  else if duration ≤ 180 then duration / 30
  else duration / 45

/-- `VideoConfig.get_frames_per_concept` in `workers/background_tasks.py`:
```
frame_duration = duration / num_concepts
return max(15, int(cls.FPS * frame_duration))
```
parametrised by the configured fps; float arithmetic idealized to exact
rationals, `int` of a nonnegative value is the floor.  The caller guarantees
`num_concepts ≠ 0` (otherwise Python raises `ZeroDivisionError`, handled at
the call site model). -/
def get_frames_per_concept (fps duration num_concepts : ℕ) : ℕ :=
  max 15 (Int.toNat ⌊(fps : ℚ) * ((duration : ℚ) / (num_concepts : ℚ))⌋)

/-- `VideoConfig.get_crf_quality` in `workers/background_tasks.py`. -/
def get_crf_quality (duration : ℕ) : ℕ :=
  if 600 < duration then 22
  else if 300 < duration then 20
  else 18

end VideoConfig

/-- Python `str.strip()`, modelled over the character list: leading and
trailing whitespace removed. -/
def pyStrip (s : String) : String :=
  ⟨((s.data.dropWhile Char.isWhitespace).reverse.dropWhile
      Char.isWhitespace).reverse⟩

/-- Python `str.split` at newlines, modelled over the character list: split at
every newline, keeping empty pieces. -/
def pySplitLines (s : String) : List String :=
  (List.splitOn (Char.ofNat 10) s.data).map (fun cs => ⟨cs⟩)

/-- `VideoGenerationTask._extract_visual_concepts`
(`workers/background_tasks.py`).  The Gemini call's outcome is the oracle:
`.ok text` is `response.text`, `.error msg` any raised exception.  On
success the response is split into nonempty stripped lines and truncated to
`num_concepts`; on any exception the `except` branch returns the placeholder
list `[f"Concept {i+1}" for i in range(num_concepts)]`. -/
def extract_visual_concepts (resp : Except String String)
    (num_concepts : ℕ) : List String :=
  match resp with
  | .ok text =>
      (((pySplitLines text).map pyStrip).filter (fun c => c ≠ "")).take
        num_concepts
  | .error _ => (List.range num_concepts).map
      (fun i => "Concept " ++ toString (i + 1))

/-- `PDFExtractor.extract_key_points` (`workers/background_tasks.py`): on a
successful Gemini call the response is split into nonempty stripped lines;
on any exception the `except` branch returns `[]`. -/
def extract_key_points (resp : Except String String) : List String :=
  match resp with
  | .ok text => ((pySplitLines text).map pyStrip).filter (fun c => c ≠ "")
  | .error _ => []

/-- Inner double loop of
`VideoGenerationTask._generate_visual_frames_with_animations`: for each
concept, `frames_per_concept` frames are rendered and saved under the running
index `frame_count`; the returned list collects the `frame_count` values of
the saved frames in order. -/
def renderFrames : List String → ℕ → ℕ → List ℕ
  | [], _, _ => []
  | _ :: cs, fpc, cnt =>
      (List.range fpc).map (fun j => cnt + j) ++ renderFrames cs fpc (cnt + fpc)

/-- `VideoGenerationTask._generate_visual_frames_with_animations`
(`workers/background_tasks.py`).  `diskR` is the oracle for the filesystem
operations (`os.makedirs`, `img.save`): `.error e` models a raised OS error,
re-raised by the `except` branch.  With an empty concept list Python raises
`ZeroDivisionError` computing `duration / num_concepts`.  Otherwise exactly
`len(concepts) * frames_per_concept` frames are written. -/
def generate_visual_frames_with_animations (fps : ℕ) (concepts : List String)
    (duration : ℕ) (diskR : Except String Unit) : Except String (List ℕ) :=
  match diskR with
  | .error e => .error e
  | .ok _ =>
      if concepts.length = 0 then .error "division by zero"
      else
        .ok (renderFrames concepts
          (VideoConfig.get_frames_per_concept fps duration concepts.length) 0)

/-- Mutable state of the `GeminiClient` singleton
(`core/gemini_client.py`): `client` records whether the `genai` SDK was
configured in `__init__` (`self.client` is `None` on failure),
`last_request_time`, `request_count` and `daily_token_count` are the
instance counters, and `rate_limit_interval` is initialized to
`RateLimits.REQUEST_INTERVAL`. -/
structure GeminiClient where
  client : Bool
  last_request_time : ℚ
  request_count : ℕ
  daily_token_count : ℕ
  rate_limit_interval : ℚ
  deriving DecidableEq, Repr

/-- `GeminiClient.__init__` state with a configured SDK:
`last_request_time = 0.0`, counters zero. -/
def GeminiClient.mk0 : GeminiClient :=
  { client := true
    last_request_time := 0
    request_count := 0
    daily_token_count := 0
    rate_limit_interval := REQUEST_INTERVAL }

/-- `GeminiClient._enforce_rate_limit` (`core/gemini_client.py`): with
`now = time.time()` at entry, computes `elapsed = now - last_request_time`;
if `elapsed < rate_limit_interval` it sleeps the remainder, so the caller
resumes at `now + (rate_limit_interval - elapsed)`, else it proceeds at
`now`.  It then stores the resume instant into `last_request_time` and
increments `request_count`.  Returns the instant at which the guarded
request starts, paired with the updated state. -/
def enforce_rate_limit (now : ℚ) (st : GeminiClient) : ℚ × GeminiClient :=
  let elapsed := now - st.last_request_time
  let start :=
    if elapsed < st.rate_limit_interval then
      now + (st.rate_limit_interval - elapsed)
    else now
  (start,
   { st with last_request_time := start, request_count := st.request_count + 1 })

/-- Outcome of one external Gemini SDK call, seen from the awaiting caller:
`delay` is how long the call takes (`asyncio.wait_for` raises
`TimeoutError` when it exceeds the timeout), `result` is `response.text` or
a raised exception, `usage` is the token total from `response.usage_metadata`
when that attribute is present. -/
structure GenOutcome where
  delay : ℚ
  result : Except String String
  usage : Option ℕ
  deriving Repr

/-- `GeminiClient.generate` (`core/gemini_client.py`): enforces the rate
limit, returns `None` when the SDK is unconfigured, awaits the call under
the `Timeouts.GEMINI_REQUEST` timeout (`None` on `asyncio.TimeoutError`),
returns `None` on any raised exception, and on success accumulates the
reported token usage into `daily_token_count`, logging a soft warning when
the counter exceeds 800 000; the generated text is returned.  The third
component records whether the soft warning was logged on this call. -/
def GeminiClient.generate (st : GeminiClient) (now : ℚ) (o : GenOutcome) :
    Option String × GeminiClient × Bool :=
  let (_, st1) := enforce_rate_limit now st
  if st1.client = false then (none, st1, false)
  else if (GEMINI_REQUEST : ℚ) < o.delay then (none, st1, false)
  else
    match o.result with
    | .error _ => (none, st1, false)
    | .ok text =>
        match o.usage with
        | none => (some text, st1, false)
        | some tokens =>
            let st2 :=
              { st1 with daily_token_count := st1.daily_token_count + tokens }
            (some text, st2, decide (800000 < st2.daily_token_count))

/-- `GeminiClient.generate_json` (`core/gemini_client.py`): enforces the
rate limit, returns `None` when the SDK is unconfigured, awaits the call
under the `Timeouts.GEMINI_REQUEST` timeout (`None` on timeout), parses
`response.text` with `json.loads` (`None` on `json.JSONDecodeError`),
returns `None` on any other raised exception, and otherwise returns the
parsed object.  `jsonLoads` abstracts the Python standard library parser:
`none` models a `JSONDecodeError`. -/
def GeminiClient.generate_json {α : Type} (jsonLoads : String → Option α)
    (st : GeminiClient) (now : ℚ) (o : GenOutcome) :
    Option α × GeminiClient :=
  let (_, st1) := enforce_rate_limit now st
  if st1.client = false then (none, st1)
  else if (GEMINI_REQUEST : ℚ) < o.delay then (none, st1)
  else
    match o.result with
    | .error _ => (none, st1)
    | .ok text =>
        match jsonLoads text with
        | none => (none, st1)
        | some v => (some v, st1)

/-- The places in the repository that call the external generative service.
`clientGenerate`/`clientGenerateJson` are `GeminiClient.generate` and
`GeminiClient.generate_json` in `core/gemini_client.py`; the remaining five
are the pipeline helpers in `workers/background_tasks.py`
(`PDFExtractor.extract_key_points`, `_generate_script_from_data`,
`_generate_narration_from_script`, `_extract_visual_concepts`,
`_generate_visual_descriptions`). -/
inductive GenCallSite
  | clientGenerate
  | clientGenerateJson
  | extractKeyPoints
  | scriptFromData
  | narrationFromScript
  | extractVisualConceptsSite
  | visualDescriptions
  deriving DecidableEq, Repr

/-- Whether the call site reaches the external service through
`GeminiClient._enforce_rate_limit`.  The two `GeminiClient` operations call
`self._enforce_rate_limit()` before the SDK call; every pipeline helper in
`workers/background_tasks.py` instead constructs
`genai.GenerativeModel(settings.GEMINI_API_MODEL)` and calls
`model.generate_content(prompt)` directly, with no rate-limiter in the call
path (`get_gemini_client` is not referenced anywhere in the workers). -/
def passesRateLimiter : GenCallSite → Bool
  | .clientGenerate => true
  | .clientGenerateJson => true
  | .extractKeyPoints => false
  | .scriptFromData => false
  | .narrationFromScript => false
  | .extractVisualConceptsSite => false
  | .visualDescriptions => false

/-- Start instants of a sequence of generative calls made anywhere in the
process, given each call's site and arrival instant.  A call through the
`GeminiClient` waits out `_enforce_rate_limit` against the shared client
state; a direct `model.generate_content` call starts immediately at its
arrival instant and leaves the client state untouched. -/
def runProcessCalls (st : GeminiClient) :
    List (GenCallSite × ℚ) → List ℚ
  | [] => []
  | (site, t) :: rest =>
      if passesRateLimiter site then
        let (s, st') := enforce_rate_limit t st
        s :: runProcessCalls st' rest
      else
        t :: runProcessCalls st rest

/-- Filesystem paths touched by `VideoGenerationTask._compile_video`:
`video.mp4`, the intermediate `video_no_audio.mp4`, the narration audio and
the rendered frame images. -/
inductive PathT
  | output
  | temp
  | audio
  | frame (i : ℕ)
  deriving DecidableEq, Repr

/-- A filesystem effect performed by `_compile_video`. -/
inductive FSOp
  | write (p : PathT)
  | remove (p : PathT)
  deriving DecidableEq, Repr

/-- `VideoGenerationTask._compile_video` (`workers/background_tasks.py`),
as a function of the two ffmpeg invocation oracles: `encR`/`muxR` is `none`
when the subprocess exits with returncode 0, and `some stderr` otherwise.
Phase (a) writes the silent `video_no_audio.mp4` from the frames; a nonzero
returncode raises `Exception(f"FFmpeg error: {stderr[:200]}")` with nothing
deleted.  Phase (b) muxes the silent video with the audio into `video.mp4`;
a nonzero returncode raises likewise with nothing deleted.  Only after both
phases succeed is the intermediate `video_no_audio.mp4` removed.  The result
pairs the returned output path (or the raised message) with the ordered list
of filesystem effects performed. -/
def compile_video (encR muxR : Option String) :
    Except String PathT × List FSOp :=
  match encR with
  | some stderr =>
      (.error ("FFmpeg error: " ++ stderr.take 200), [.write .temp])
  | none =>
      match muxR with
      | some stderr =>
          (.error ("FFmpeg error: " ++ stderr.take 200),
           [.write .temp, .write .output])
      | none =>
          (.ok .output, [.write .temp, .write .output, .remove .temp])

/-- `VideoGenerationTask._generate_script_from_data`
(`workers/background_tasks.py`): on a successful Gemini call the stripped
response text is returned (the two markdown-cleanup `re.sub` rewrites only
rewrite the text and cannot raise; they are represented by the oracle's
returned text); on any exception the `except` branch returns `title`. -/
def generate_script_from_data (title : String)
    (resp : Except String String) : String :=
  match resp with
  | .ok text => pyStrip text
  | .error _ => title

/-- `VideoGenerationTask._generate_narration_from_script`
(`workers/background_tasks.py`): on success the stripped response text (the
markdown/stage-direction `re.sub` rewrites, which cannot raise, are
represented by the oracle's returned text); on any exception the `except`
branch returns `script`. -/
def generate_narration_from_script (script : String)
    (resp : Except String String) : String :=
  match resp with
  | .ok text => pyStrip text
  | .error _ => script

/-- `VideoGenerationTask._generate_tts_audio`
(`workers/background_tasks.py`): raises `"No narration"` when the narration
strips to the empty string; otherwise the Kokoro engine runs, and the oracle
gives either the measured audio duration
(`len(full_audio) / TTS_SAMPLE_RATE`) or the message of a raised exception
(including `"No audio generated"`), which the `except` branch re-raises. -/
def generate_tts_audio (narration : String) (ttsR : Except String ℚ) :
    Except String ℚ :=
  if pyStrip narration = "" then .error "No narration" else ttsR

/-- `VideoGenerationTask._generate_visual_descriptions`
(`workers/background_tasks.py`): best-effort — on success the stripped
response text, on any exception the `except` branch degrades to the empty
description. -/
def generate_visual_descriptions (resp : Except String String) : String :=
  match resp with
  | .ok text => pyStrip text
  | .error _ => ""

/-- One kind of input source handed to step 1 of the pipeline: a PDF file
(whose extraction `PDFExtractor.extract_pdf_content` never raises and yields
the given text, possibly empty, always appended) or an inline text source
(appended only when its content is nonempty, per the `if content:` check). -/
inductive SourceInput
  | pdf (extracted : String)
  | text (content : String)
  deriving DecidableEq, Repr

/-- Step 1 per-source extraction (`generate_video`, step 1): PDF sources
contribute their extracted content unconditionally; text sources only when
nonempty. -/
def extractSource : SourceInput → Option String
  | .pdf c => some c
  | .text c => if c = "" then none else some c

/-- Oracles for the external effects of one `generate_video` run.  Each
`Except` is the outcome of the corresponding external call: `.ok` the
returned payload, `.error` the `str(e)` of a raised exception.  Filesystem
writes of the textual artifacts (script, narration, concepts, metadata) are
modelled as always succeeding. -/
structure Oracles where
  sources : List SourceInput
  keyPointsR : Except String String
  scriptR : Except String String
  narrationR : Except String String
  ttsR : Except String ℚ
  conceptsR : Except String String
  descR : Except String String
  framesR : Except String Unit
  encR : Option String
  muxR : Option String

/-- One call to `update_video_progress_sync` (`workers/background_tasks.py`)
as issued by the worker: the `step` argument, the persisted
`progress = int((step / total_steps) * 100)` (exact: `10 * step` for
`step ≤ 10`, `total_steps = 10`), the persisted `status`, and the
`error_message` kwarg when passed. -/
structure Upd where
  step : ℕ
  progress : ℕ
  status : VStatus
  error_message : Option String
  deriving DecidableEq, Repr

/-- Progress update issued at the start and at the end of step `k` while
the pipeline is running: `update_video_progress_sync(video_id, k, 10,
"processing")`. -/
def Upd.proc (k : ℕ) : Upd := ⟨k, 10 * k, .processing, none⟩

/-- Terminal update of the `except` branch of `generate_video`:
`update_video_progress_sync(video_id, 0, 10, status="failed",
error_message=str(e))`. -/
def Upd.fail (e : String) : Upd := ⟨0, 0, .failed, some e⟩

/-- Observable result of one `VideoGenerationTask.generate_video` run:
the ordered list of `update_video_progress_sync` calls it issued, the list
of steps whose work was entered, the terminal status, and the error message
recorded by the `except` branch (matching the `_completed_videos` handoff
entry written at the end of the run). -/
structure RunResult where
  updates : List Upd
  executed : List ℕ
  status : VStatus
  error_message : Option String
  deriving Repr

/-- Step 1 of `generate_video`: combined content of the extracted sources
(`"\n\n".join(...)`); per-source extraction failures are caught and
skipped. -/
def combined_content (o : Oracles) : String :=
  String.intercalate "\n\n" (o.sources.filterMap extractSource)

/-- Step 2 value: `key_points`. -/
def key_points (o : Oracles) : List String := extract_key_points o.keyPointsR

/-- Step 3 value: `script`. -/
def script (title : String) (o : Oracles) : String :=
  generate_script_from_data title o.scriptR

/-- Step 4 value: `narration`. -/
def narration (title : String) (o : Oracles) : String :=
  generate_narration_from_script (script title o) o.narrationR

/-- Step 5 outcome: the TTS audio duration, or the raised error. -/
def tts_result (title : String) (o : Oracles) : Except String ℚ :=
  generate_tts_audio (narration title o) o.ttsR

/-- Step 6 value given the audio duration: `actual_duration =
int(audio_duration)` (the duration is nonnegative). -/
def actual_duration_of (d : ℚ) : ℕ := Int.toNat ⌊d⌋

/-- Step 6 value: the concept list derived from the oracle and
`VideoConfig.get_num_concepts(actual_duration)`. -/
def concepts_of (_title : String) (o : Oracles) (d : ℚ) : List String :=
  extract_visual_concepts o.conceptsR
    (VideoConfig.get_num_concepts (actual_duration_of d))

/-- Step 8 outcome given the audio duration: the rendered frame list or the
raised error. -/
def frames_result_at (title : String) (o : Oracles) (d : ℚ) :
    Except String (List ℕ) :=
  generate_visual_frames_with_animations VideoConfig.FPS
    (concepts_of title o d) (actual_duration_of d) o.framesR

/-- Step 8 outcome of the run (propagating a step 5 failure). -/
def frames_result (title : String) (o : Oracles) : Except String (List ℕ) :=
  match tts_result title o with
  | .error e => .error e
  | .ok d => frames_result_at title o d

/-- Step 9 outcome of the run (propagating earlier failures): the compiled
output path or the raised `FFmpeg error`. -/
def compile_result (title : String) (o : Oracles) : Except String PathT :=
  match frames_result title o with
  | .error e => .error e
  | .ok _ => (compile_video o.encR o.muxR).1

/-- The updates issued through the start of step 5: one at the start and
one at the end of each of steps 1-4, then the step-5 start update. -/
def updatesPre5 : List Upd :=
  [Upd.proc 1, Upd.proc 1, Upd.proc 2, Upd.proc 2, Upd.proc 3, Upd.proc 3,
   Upd.proc 4, Upd.proc 4, Upd.proc 5]

/-- The updates issued through the start of step 8 (step 5 end, steps 6-7,
step 8 start). -/
def updatesPre8 : List Upd :=
  updatesPre5 ++ [Upd.proc 5, Upd.proc 6, Upd.proc 6, Upd.proc 7,
                  Upd.proc 7, Upd.proc 8]

/-- The updates issued through the start of step 9 (step 8 end, step 9
start). -/
def updatesPre9 : List Upd := updatesPre8 ++ [Upd.proc 8, Upd.proc 9]

/-- The full update sequence of a successful run (step 9 end, step 10
start, and the final `status="completed"` update). -/
def updatesSuccess : List Upd :=
  updatesPre9 ++ [Upd.proc 9, Upd.proc 10, ⟨10, 100, .completed, none⟩]

/-- `VideoGenerationTask.generate_video` (`workers/background_tasks.py`),
linearized: steps 1–4 cannot raise (their helpers catch every exception and
degrade: `extract_key_points → []`, `_generate_script_from_data → title`,
`_generate_narration_from_script → script`), step 5 (TTS), step 8 (frames)
and step 9 (compilation) re-raise their failures and are the only raising
stages; step 6 degrades to placeholder concepts and step 7 to an empty
description.  At each exit the `updates` field lists, in order, every
`update_video_progress_sync` call issued up to that exit, followed in the
failure case by the `except` branch's `(0, "failed", str(e))` update.  The
requested target duration and `custom_prompt` do not influence the run. -/
def generate_video (title : String) (o : Oracles) : RunResult :=
  -- steps 1-4 (degrading, never raise), then the start update of step 5
  match tts_result title o with
  | .error e =>
      ⟨updatesPre5 ++ [Upd.fail e], [1, 2, 3, 4, 5], .failed, some e⟩
  | .ok audio_duration =>
      match frames_result_at title o audio_duration with
      | .error e =>
          ⟨updatesPre8 ++ [Upd.fail e], [1, 2, 3, 4, 5, 6, 7, 8], .failed,
           some e⟩
      | .ok _frames =>
          match (compile_video o.encR o.muxR).1 with
          | .error e =>
              ⟨updatesPre9 ++ [Upd.fail e], [1, 2, 3, 4, 5, 6, 7, 8, 9],
               .failed, some e⟩
          | .ok _path =>
              ⟨updatesSuccess, [1, 2, 3, 4, 5, 6, 7, 8, 9, 10], .completed,
               none⟩

/-- An entry of the `_completed_videos` handoff dictionary
(`workers/background_tasks.py`): the worker stores either a completed record
(output path, file size, …) or `{"status": "failed", "error": str(e)}`. -/
inductive HEntry
  | hCompleted
  | hFailed (err : String)
  deriving DecidableEq, Repr

/-- The handoff entry `generate_video` writes into `_completed_videos` at
its end, derived from the run's terminal outcome. -/
def handoffEntry (r : RunResult) : HEntry :=
  match r.status with
  | .completed => .hCompleted
  | _ => .hFailed (r.error_message.getD "")

/-- A single cross-context write performed by the worker, in program order:
a `Video` row update through `update_video_progress_sync`, or the final
`_completed_videos[video_id] = …` dictionary write. -/
inductive WAct
  | dbWrite (u : Upd)
  | handoffW (h : HEntry)
  deriving DecidableEq, Repr

/-- The ordered writes a `generate_video` run performs: each of its
`update_video_progress_sync` calls, followed by the `_completed_videos`
handoff write issued at the end of both the success and the failure path. -/
def workerActions (title : String) (o : Oracles) : List WAct :=
  ((generate_video title o).updates.map WAct.dbWrite) ++
    [WAct.handoffW (handoffEntry (generate_video title o))]

/-- The persisted `Video` row fields relevant to status polling
(`app/models/models.py`): `status`, `progress`, `error_message`. -/
structure DbRec where
  status : VStatus
  progress : ℕ
  error_message : Option String
  deriving DecidableEq, Repr

/-- Cross-context state of one job: the persisted `Video` row, the job's
`_completed_videos` entry, and the worker's remaining queue of writes. -/
structure Sys where
  db : DbRec
  handoffSt : Option HEntry
  queue : List WAct
  deriving DecidableEq, Repr

/-- Effect of one `update_video_progress_sync` call on the `Video` row:
`progress` and `status` are always assigned; `error_message` only when the
kwarg is passed. -/
def applyUpd (db : DbRec) (u : Upd) : DbRec :=
  { status := u.status
    progress := u.progress
    error_message :=
      match u.error_message with
      | some e => some e
      | none => db.error_message }

/-- Interleaved operations on one job's shared state. -/
inductive Ev
  | workerStep (dropped : Bool)
  | poll
  | cancel
  deriving DecidableEq, Repr

/-- One operation on the job's shared state.

* `workerStep dropped` — the worker performs its next queued write.  A row
  update may fail to persist (`update_video_progress_sync` swallows every
  exception, and the final update is scheduled with `asyncio.ensure_future`
  on a loop that is about to close), modelled by `dropped = true`; the
  handoff dictionary write always takes effect.
* `poll` — `get_generation_status` (`routers/generation.py`): when a
  handoff entry exists it is merged into the row: a completed entry sets
  `status = "completed"`, `progress = 100` and the artifact fields; a failed
  entry sets `status = "failed"` and `error_message`.
* `cancel` — `cancel_generation` (`routers/generation.py`): after the
  status check it calls `gen_service.mark_failed(video_id, "Cancelled by
  user")`, but `VideoGenerationService`
  (`services/video_generation_service.py`) defines no `mark_failed`
  attribute, so the call raises `AttributeError` before any write; the
  generic handler turns it into an HTTP 500 and the row is left untouched. -/
def stepSys (s : Sys) : Ev → Sys
  | .workerStep dropped =>
      match s.queue with
      | [] => s
      | .dbWrite u :: rest =>
          { s with
            db := if dropped then s.db else applyUpd s.db u
            queue := rest }
      | .handoffW h :: rest => { s with handoffSt := some h, queue := rest }
  | .poll =>
      match s.handoffSt with
      | none => s
      | some .hCompleted =>
          { s with
            db := { status := .completed, progress := 100
                    error_message := s.db.error_message } }
      | some (.hFailed e) =>
          { s with db := { s.db with status := .failed
                                     error_message := some e } }
  | .cancel => s

/-- Applying a sequence of operations. -/
def runEvents (s : Sys) : List Ev → Sys
  | [] => s
  | e :: evs => runEvents (stepSys s e) evs

/-- Initial shared state of a job: the row created `pending` with
`progress = 0` by `start_generation`, no handoff entry, and the worker's
full write queue ahead of it. -/
def initSys (title : String) (o : Oracles) : Sys :=
  ⟨⟨.pending, 0, none⟩, none, workerActions title o⟩

/-- A persisted status is terminal when it is `completed` or `failed`. -/
def TerminalS (st : VStatus) : Prop := st = .completed ∨ st = .failed

/-- Inductive invariant of the shared job state under worker, poll and
cancel operations: the worker's remaining queue is a suffix of its full
write sequence; a handoff entry, once present, is the worker's own terminal
entry and appears only after the queue has drained; and a terminal
persisted status always equals the run's terminal status, with at most the
handoff write left in the queue. -/
def InvS (title : String) (o : Oracles) (s : Sys) : Prop :=
  s.queue <:+ workerActions title o ∧
  (s.handoffSt = none ∨
    s.handoffSt = some (handoffEntry (generate_video title o))) ∧
  (s.handoffSt ≠ none → s.queue = []) ∧
  (TerminalS s.db.status →
    s.db.status = (generate_video title o).status ∧
    (s.queue = [] ∨
      s.queue = [WAct.handoffW (handoffEntry (generate_video title o))]))

/-- A run in which every external call succeeds: one text source, a
1-second narration audio, five concept lines, both ffmpeg phases exiting
0. -/
def oracleAllOk : Oracles :=
  { sources := [.text "Some source content"]
    keyPointsR := .ok "Point one\nPoint two"
    scriptR := .ok "A script about the topic"
    narrationR := .ok "A narration about the topic"
    ttsR := .ok 1
    conceptsR := .ok "A\nB\nC\nD\nE"
    descR := .ok "desc"
    framesR := .ok ()
    encR := none
    muxR := none }

/-- Same run as `oracleAllOk` except that the key-point Gemini call raises
`"Gemini down"`. -/
def oracleKeyPointFailure : Oracles :=
  { oracleAllOk with keyPointsR := .error "Gemini down" }

/-- Same run as `oracleAllOk` except that the TTS stage raises
`"Kokoro timeout"`. -/
def oracleTtsFailure : Oracles :=
  { oracleAllOk with ttsR := .error "Kokoro timeout" }

/-- The frame loop writes exactly `len(concepts) * frames_per_concept`
frames. -/
theorem renderFrames_length (cs : List String) (fpc cnt : ℕ) :
    (renderFrames cs fpc cnt).length = cs.length * fpc := by
  induction cs generalizing cnt with
  | nil => simp [renderFrames]
  | cons c cs ih =>
      simp only [renderFrames, List.length_append, List.length_map,
        List.length_range, ih, List.length_cons]
      ring

/-- C5: the spec requires `get_num_concepts` to be bounded below by 5 and
monotonically non-decreasing in the audio duration, but the code's middle
tier `int(duration / 30)` has no lower clamp: a 61-second audio yields 2
concepts while a 60-second audio yields 5, and a 181-second audio yields 4
while a 180-second audio yields 6. -/
theorem C5_num_concepts_tier_drop :
    VideoConfig.get_num_concepts 60 = 5 ∧
    VideoConfig.get_num_concepts 61 = 2 ∧
    VideoConfig.get_num_concepts 61 < 5 ∧
    VideoConfig.get_num_concepts 61 < VideoConfig.get_num_concepts 60 ∧
    VideoConfig.get_num_concepts 180 = 6 ∧
    VideoConfig.get_num_concepts 181 = 4 := by
  decide

/-- C10: `_extract_visual_concepts` returns at most `num_concepts` concepts
(`concepts[:num_concepts]`), and when the generative call raises any
exception it returns exactly the `num_concepts` placeholder strings
`"Concept 1" … "Concept n"`; the helper catches every exception, so on its
own it never fails a job. -/
theorem C10_extract_visual_concepts_bounded (n : ℕ) (text msg : String) :
    (extract_visual_concepts (.ok text) n).length ≤ n ∧
    extract_visual_concepts (.error msg) n =
      (List.range n).map (fun i => "Concept " ++ toString (i + 1)) ∧
    (extract_visual_concepts (.error msg) n).length = n := by
  refine ⟨?_, rfl, by simp [extract_visual_concepts]⟩
  simp only [extract_visual_concepts, List.length_take]
  exact min_le_left _ _

/-- C6: for a nonempty concept list, `FrameRendering` writes exactly
`len(concepts) * frames_per_concept` frames, where the per-concept count is
`max(15, floor(fps * (duration / len(concepts))))`; the count is a function
of `(duration, concept_count, fps)` alone. -/
theorem C6_frame_rendering_count (fps duration : ℕ) (concepts : List String)
    (h : concepts ≠ []) :
    (generate_visual_frames_with_animations fps concepts duration
        (.ok ())).map List.length =
      .ok (concepts.length *
        VideoConfig.get_frames_per_concept fps duration concepts.length) ∧
    VideoConfig.get_frames_per_concept fps duration concepts.length =
      max 15 (Int.toNat
        ⌊(fps : ℚ) * ((duration : ℚ) / (concepts.length : ℚ))⌋) := by
  refine ⟨?_, rfl⟩
  simp [generate_visual_frames_with_animations, List.length_eq_zero.not.mpr h,
    Except.map, renderFrames_length, h]

/-- Witness for C6 at `fps = 30`, `duration = 1`, one concept. -/
theorem C6_frame_rendering_count_witness :
    ((["Concept A"] : List String) ≠ []) ∧
    (generate_visual_frames_with_animations 30 ["Concept A"] 1
        (.ok ())).map List.length =
      .ok ((["Concept A"] : List String).length *
        VideoConfig.get_frames_per_concept 30 1
          (["Concept A"] : List String).length) :=
  ⟨by decide,
   (C6_frame_rendering_count 30 1 ["Concept A"] (by decide)).1⟩

/-- C7: `_compile_video` succeeds exactly when both ffmpeg phases exit 0;
the intermediate silent video is removed exactly on success, and the remove
is the last effect — strictly after the successful mux wrote `video.mp4`;
no path other than the intermediate file (in particular no frame image) is
ever removed, and on any failure nothing at all is removed. -/
theorem C7_compile_cleanup (encR muxR : Option String) :
    ((compile_video encR muxR).1 = .ok PathT.output ↔
      encR = none ∧ muxR = none) ∧
    (FSOp.remove .temp ∈ (compile_video encR muxR).2 ↔
      encR = none ∧ muxR = none) ∧
    (∀ p, FSOp.remove p ∈ (compile_video encR muxR).2 → p = .temp) ∧
    ((compile_video encR muxR).1 = .ok PathT.output →
      (compile_video encR muxR).2 =
        [.write .temp, .write .output, .remove .temp]) ∧
    ((compile_video encR muxR).1 ≠ .ok PathT.output →
      ∀ p, FSOp.remove p ∉ (compile_video encR muxR).2) := by
  cases encR <;> cases muxR <;>
    simp [compile_video]

/-- Witness for C7: with both ffmpeg phases succeeding, the intermediate
silent video is removed. -/
theorem C7_compile_cleanup_witness :
    FSOp.remove PathT.temp ∈ (compile_video none none).2 :=
  (C7_compile_cleanup none none).2.1.mpr ⟨rfl, rfl⟩

/-- The instant returned by `_enforce_rate_limit` is at least one full
interval after the stored `last_request_time`. -/
theorem enforce_rate_limit_spacing (now : ℚ) (st : GeminiClient) :
    st.last_request_time + st.rate_limit_interval ≤
      (enforce_rate_limit now st).1 := by
  unfold enforce_rate_limit
  dsimp only
  split <;> linarith

/-- `_enforce_rate_limit` stores the returned instant and keeps the
configured interval. -/
theorem enforce_rate_limit_state (now : ℚ) (st : GeminiClient) :
    (enforce_rate_limit now st).2.last_request_time =
        (enforce_rate_limit now st).1 ∧
    (enforce_rate_limit now st).2.rate_limit_interval =
        st.rate_limit_interval := ⟨rfl, rfl⟩

/-- Start instants of a run of rate-limited calls: consecutive starts are
at least one interval apart, and every start is at least one interval after
the initial `last_request_time`. -/
theorem runProcessCalls_spacing (calls : List (GenCallSite × ℚ)) :
    ∀ st : GeminiClient, 0 ≤ st.rate_limit_interval →
      (∀ c ∈ calls, passesRateLimiter c.1 = true) →
      List.Chain' (fun a b => a + st.rate_limit_interval ≤ b)
          (runProcessCalls st calls) ∧
      (∀ s ∈ runProcessCalls st calls,
        st.last_request_time + st.rate_limit_interval ≤ s) := by
  induction calls with
  | nil => intro st _ _; simp [runProcessCalls]
  | cons c rest ih =>
      intro st hi hall
      obtain ⟨site, t⟩ := c
      have hsite : passesRateLimiter site = true := hall _ (List.mem_cons_self _ _)
      have hrest : ∀ x ∈ rest, passesRateLimiter x.1 = true :=
        fun x hx => hall x (List.mem_cons_of_mem _ hx)
      simp only [runProcessCalls, hsite, if_pos]
      set st' := (enforce_rate_limit t st).2 with hst'
      have hi' : 0 ≤ st'.rate_limit_interval := by
        rw [hst', (enforce_rate_limit_state t st).2]; exact hi
      obtain ⟨ihchain, ihall⟩ := ih st' hi' hrest
      have hlast : st'.last_request_time = (enforce_rate_limit t st).1 :=
        (enforce_rate_limit_state t st).1
      have hint : st'.rate_limit_interval = st.rate_limit_interval :=
        (enforce_rate_limit_state t st).2
      constructor
      · cases hrun : runProcessCalls st' rest with
        | nil => simp [hrun]
        | cons y ys =>
            rw [hrun] at ihchain ihall
            refine List.chain'_cons.mpr ⟨?_, ?_⟩
            · have := ihall y (List.mem_cons_self _ _)
              rw [hlast, hint] at this
              exact this
            · simp only [hint] at ihchain
              exact ihchain
      · intro s hs
        rcases List.mem_cons.mp hs with h | h
        · subst h; exact enforce_rate_limit_spacing t st
        · have h1 := ihall s h
          rw [hlast, hint] at h1
          have h2 := enforce_rate_limit_spacing t st
          linarith

/-- Along a chain with gaps of at least `d`, the last element is at least
`(length − 1) · d` beyond the first. -/
theorem chain_spaced_total (d : ℚ) :
    ∀ (l : List ℚ) (x y : ℚ),
      List.Chain' (fun a b => a + d ≤ b) (x :: l) →
      (x :: l).getLast? = some y →
      x + (l.length : ℚ) * d ≤ y := by
  intro l
  induction l with
  | nil =>
      intro x y _ hy
      simp only [List.getLast?_singleton, Option.some.injEq] at hy
      subst hy; simp
  | cons z t ih =>
      intro x y hc hy
      rw [List.getLast?_cons_cons] at hy
      have h1 : x + d ≤ z := (List.chain'_cons.mp hc).1
      have h2 := ih z y (List.chain'_cons.mp hc).2 hy
      simp only [List.length_cons]
      push_cast
      have h3 : x + ((t.length : ℚ) + 1) * d = (x + d) + (t.length : ℚ) * d := by
        ring
      rw [h3]
      linarith

/-- C1, counterexample: two consecutive generative-service calls made by
the pipeline (the key-point call of `PDFExtractor.extract_key_points`
followed by the script call of `_generate_script_from_data`) invoke
`model.generate_content` directly without touching
`GeminiClient._enforce_rate_limit`; arriving 1 second apart from a cold
client state they start 1 second apart, below the deployed
`REQUEST_INTERVAL` of 60/15 = 4 s, so the claimed process-wide minimum
spacing fails. -/
theorem C1_pipeline_calls_bypass_limiter :
    runProcessCalls GeminiClient.mk0
        [(.extractKeyPoints, 100), (.scriptFromData, 101)] =
      [(100 : ℚ), 101] ∧
    (101 : ℚ) - 100 < REQUEST_INTERVAL ∧
    passesRateLimiter .extractKeyPoints = false ∧
    passesRateLimiter .scriptFromData = false := by
  refine ⟨rfl, ?_, rfl, rfl⟩
  norm_num [REQUEST_INTERVAL]

/-- C1, amended: the minimum-spacing guarantee holds exactly for the calls
routed through `GeminiClient` (`generate` / `generate_json`), whose shared
state paces consecutive starts at least `rate_limit_interval` apart — the
deployed interval being `REQUEST_INTERVAL = 60 / RPM_LIMIT = 4` s — so `N`
consecutive client calls span at least `(N−1) × (60/R)` seconds; the
pipeline's key-point, script, narration, concept and description calls
bypass the client and receive no spacing. -/
theorem C1_client_spacing_amended (st : GeminiClient)
    (calls : List (GenCallSite × ℚ)) (x y : ℚ) (l : List ℚ)
    (hi : 0 ≤ st.rate_limit_interval)
    (hall : ∀ c ∈ calls, passesRateLimiter c.1 = true)
    (heq : runProcessCalls st calls = x :: l)
    (hy : (x :: l).getLast? = some y) :
    REQUEST_INTERVAL = 60 / (RPM_LIMIT : ℚ) ∧
    GeminiClient.mk0.rate_limit_interval = REQUEST_INTERVAL ∧
    List.Chain' (fun a b => a + st.rate_limit_interval ≤ b) (x :: l) ∧
    x + (l.length : ℚ) * st.rate_limit_interval ≤ y ∧
    (∀ site, passesRateLimiter site = true ↔
      (site = .clientGenerate ∨ site = .clientGenerateJson)) := by
  have hchain := (runProcessCalls_spacing calls st hi hall).1
  rw [heq] at hchain
  refine ⟨by norm_num [REQUEST_INTERVAL, RPM_LIMIT], rfl, hchain,
    chain_spaced_total st.rate_limit_interval l x y hchain hy, ?_⟩
  intro site
  cases site <;> simp [passesRateLimiter]

/-- Witness for the amended C1: two client calls arriving simultaneously at
a cold client start 4 seconds apart (at instants 4 and 8), spanning
`(2−1) × 4` seconds. -/
theorem C1_client_spacing_amended_witness :
    REQUEST_INTERVAL = 60 / (RPM_LIMIT : ℚ) ∧
    GeminiClient.mk0.rate_limit_interval = REQUEST_INTERVAL ∧
    List.Chain'
      (fun a b => a + GeminiClient.mk0.rate_limit_interval ≤ b)
      ((4 : ℚ) :: [8]) ∧
    (4 : ℚ) + (([8] : List ℚ).length : ℚ) *
        GeminiClient.mk0.rate_limit_interval ≤ 8 ∧
    (∀ site, passesRateLimiter site = true ↔
      (site = .clientGenerate ∨ site = .clientGenerateJson)) :=
  C1_client_spacing_amended GeminiClient.mk0
    [(.clientGenerate, 0), (.clientGenerate, 0)] 4 8 [8]
    (by norm_num [GeminiClient.mk0, REQUEST_INTERVAL])
    (by decide)
    (by norm_num [runProcessCalls, enforce_rate_limit, GeminiClient.mk0,
          passesRateLimiter, REQUEST_INTERVAL])
    rfl

/-- C8: on every successful call that reports usage metadata,
`GeminiClient.generate` adds the reported tokens to `daily_token_count` and
logs the soft warning exactly when the counter passes 800 000 (80 % of the
1 000 000-token `DAILY_TOKEN_LIMIT`); a timed-out call leaves the counter
unchanged; and the call's returned result never depends on the counter —
exceeding the daily budget blocks nothing. -/
theorem C8_daily_budget_soft (st : GeminiClient) (now : ℚ) (o : GenOutcome)
    (t : ℕ) (text : String) :
    DAILY_TOKEN_LIMIT = 1000000 ∧
    (st.client = true → ¬((GEMINI_REQUEST : ℚ) < o.delay) →
      o.result = .ok text → o.usage = some t →
      (st.generate now o).2.1.daily_token_count = st.daily_token_count + t ∧
      ((st.generate now o).2.2 = true ↔
        800000 < st.daily_token_count + t)) ∧
    ((GEMINI_REQUEST : ℚ) < o.delay →
      (st.generate now o).2.1.daily_token_count = st.daily_token_count) ∧
    (∀ n : ℕ,
      (GeminiClient.generate { st with daily_token_count := n } now o).1 =
        (st.generate now o).1) := by
  refine ⟨rfl, ?_, ?_, ?_⟩
  · intro hcl hdel hres husage
    simp [GeminiClient.generate, enforce_rate_limit, hcl, hdel, hres, husage]
  · intro hdel
    by_cases hcl : st.client = false <;>
      simp [GeminiClient.generate, enforce_rate_limit, hcl, hdel]
  · intro n
    cases hr : o.result <;> cases hu : o.usage <;>
      by_cases hcl : st.client = false <;>
      by_cases hdel : (GEMINI_REQUEST : ℚ) < o.delay <;>
      simp [GeminiClient.generate, enforce_rate_limit, hr, hu, hcl, hdel]

/-- Witness for C8 at a counter of 799 999 tokens and a call reporting
2 tokens: the counter accumulates to 800 001, the warning fires, and a
counter far beyond the budget leaves the call's result unchanged. -/
theorem C8_daily_budget_soft_witness :
    (({ GeminiClient.mk0 with daily_token_count := 799999 }.generate 0
        ⟨1, .ok "hi", some 2⟩).2.1.daily_token_count = 799999 + 2 ∧
      (({ GeminiClient.mk0 with daily_token_count := 799999 }.generate 0
          ⟨1, .ok "hi", some 2⟩).2.2 = true ↔ 800000 < 799999 + 2)) ∧
    (GeminiClient.generate
        { { GeminiClient.mk0 with daily_token_count := 799999 } with
            daily_token_count := 5000000 } 0 ⟨1, .ok "hi", some 2⟩).1 =
      ({ GeminiClient.mk0 with daily_token_count := 799999 }.generate 0
        ⟨1, .ok "hi", some 2⟩).1 :=
  ⟨(C8_daily_budget_soft
        { GeminiClient.mk0 with daily_token_count := 799999 } 0
        ⟨1, .ok "hi", some 2⟩ 2 "hi").2.1 rfl
      (by norm_num [GEMINI_REQUEST]) rfl rfl,
   (C8_daily_budget_soft
        { GeminiClient.mk0 with daily_token_count := 799999 } 0
        ⟨1, .ok "hi", some 2⟩ 2 "hi").2.2.2 5000000⟩

/-- C9: both `generate` and `generate_json` run the external call under the
hard `Timeouts.GEMINI_REQUEST = 30` s timeout and are total functions into
an optional result — no fault escapes to the caller unstructured.
`generate` yields `none` on timeout or on any service exception and the
generated text otherwise; `generate_json` yields `none` on timeout or when
`json.loads` cannot parse the response, and the parsed object otherwise. -/
theorem C9_typed_failure_results {α : Type} (jsonLoads : String → Option α)
    (st : GeminiClient) (now : ℚ) (o : GenOutcome) (text : String) (v : α) :
    GEMINI_REQUEST = 30 ∧
    ((GEMINI_REQUEST : ℚ) < o.delay →
      (st.generate now o).1 = none ∧
      (GeminiClient.generate_json jsonLoads st now o).1 = none) ∧
    (∀ e, o.result = .error e →
      (st.generate now o).1 = none ∧
      (GeminiClient.generate_json jsonLoads st now o).1 = none) ∧
    (st.client = true → ¬((GEMINI_REQUEST : ℚ) < o.delay) →
      o.result = .ok text →
      (st.generate now o).1 = some text ∧
      (jsonLoads text = none →
        (GeminiClient.generate_json jsonLoads st now o).1 = none) ∧
      (jsonLoads text = some v →
        (GeminiClient.generate_json jsonLoads st now o).1 = some v)) := by
  refine ⟨rfl, ?_, ?_, ?_⟩
  · intro hdel
    constructor <;>
      (by_cases hcl : st.client = false <;>
        simp [GeminiClient.generate, GeminiClient.generate_json,
          enforce_rate_limit, hcl, hdel])
  · intro e hres
    constructor <;>
      (by_cases hcl : st.client = false <;>
        by_cases hdel : (GEMINI_REQUEST : ℚ) < o.delay <;>
        simp [GeminiClient.generate, GeminiClient.generate_json,
          enforce_rate_limit, hcl, hdel, hres])
  · intro hcl hdel hres
    refine ⟨?_, ?_, ?_⟩
    · cases hu : o.usage <;>
        simp [GeminiClient.generate, enforce_rate_limit, hcl, hdel, hres, hu]
    · intro hj
      simp [GeminiClient.generate_json, enforce_rate_limit, hcl, hdel, hres,
        hj]
    · intro hj
      simp [GeminiClient.generate_json, enforce_rate_limit, hcl, hdel, hres,
        hj]

/-- Witness for C9: a 1-second call returns its text (and, through the
identity parser, its parsed payload), while a 31-second call times out to
`none`. -/
theorem C9_typed_failure_results_witness :
    (GeminiClient.mk0.generate 0 ⟨1, .ok "hello", none⟩).1 = some "hello" ∧
    (GeminiClient.generate_json (fun s => some s) GeminiClient.mk0 0
        ⟨1, .ok "hello", none⟩).1 = some "hello" ∧
    (GeminiClient.mk0.generate 0 ⟨31, .ok "hello", none⟩).1 = none :=
  ⟨((C9_typed_failure_results (fun s => some s) GeminiClient.mk0 0
        ⟨1, .ok "hello", none⟩ "hello" "hello").2.2.2 rfl
      (by norm_num [GEMINI_REQUEST]) rfl).1,
   ((C9_typed_failure_results (fun s => some s) GeminiClient.mk0 0
        ⟨1, .ok "hello", none⟩ "hello" "hello").2.2.2 rfl
      (by norm_num [GEMINI_REQUEST]) rfl).2.2 rfl,
   ((C9_typed_failure_results (fun s => some s) GeminiClient.mk0 0
        ⟨31, .ok "hello", none⟩ "hello" "hello").2.1
      (by norm_num [GEMINI_REQUEST])).1⟩

/-- Rewrite of `generate_video` at a TTS-stage failure. -/
theorem generate_video_tts_error (title : String) (o : Oracles) (e : String)
    (h5 : tts_result title o = .error e) :
    generate_video title o =
      ⟨updatesPre5 ++ [Upd.fail e], [1, 2, 3, 4, 5], .failed, some e⟩ := by
  unfold generate_video
  rw [h5]

/-- Rewrite of `generate_video` at a frame-stage failure. -/
theorem generate_video_frames_error (title : String) (o : Oracles) (d : ℚ)
    (e : String) (h5 : tts_result title o = .ok d)
    (h8 : frames_result_at title o d = .error e) :
    generate_video title o =
      ⟨updatesPre8 ++ [Upd.fail e], [1, 2, 3, 4, 5, 6, 7, 8], .failed,
       some e⟩ := by
  unfold generate_video
  rw [h5]
  dsimp only
  rw [h8]

/-- Rewrite of `generate_video` at a compilation failure. -/
theorem generate_video_compile_error (title : String) (o : Oracles) (d : ℚ)
    (fr : List ℕ) (e : String) (h5 : tts_result title o = .ok d)
    (h8 : frames_result_at title o d = .ok fr)
    (hc : (compile_video o.encR o.muxR).1 = .error e) :
    generate_video title o =
      ⟨updatesPre9 ++ [Upd.fail e], [1, 2, 3, 4, 5, 6, 7, 8, 9], .failed,
       some e⟩ := by
  unfold generate_video
  rw [h5]
  dsimp only
  rw [h8]
  dsimp only
  rw [hc]

/-- Rewrite of `generate_video` on the success path. -/
theorem generate_video_success (title : String) (o : Oracles) (d : ℚ)
    (fr : List ℕ) (p : PathT) (h5 : tts_result title o = .ok d)
    (h8 : frames_result_at title o d = .ok fr)
    (hc : (compile_video o.encR o.muxR).1 = .ok p) :
    generate_video title o =
      ⟨updatesSuccess, [1, 2, 3, 4, 5, 6, 7, 8, 9, 10], .completed,
       none⟩ := by
  unfold generate_video
  rw [h5]
  dsimp only
  rw [h8]
  dsimp only
  rw [hc]

/-- Every `generate_video` run issues a nonempty update sequence whose
entries are all `processing` except the last, which carries the run's
terminal status and error message; the terminal status is always
`completed` or `failed`. -/
theorem generate_video_shape (title : String) (o : Oracles) :
    ∃ pre lastU,
      (generate_video title o).updates = pre ++ [lastU] ∧
      (∀ u ∈ pre, u.status = .processing) ∧
      lastU.status = (generate_video title o).status ∧
      lastU.error_message = (generate_video title o).error_message ∧
      TerminalS (generate_video title o).status := by
  cases h5 : tts_result title o with
  | error e =>
      rw [generate_video_tts_error title o e h5]
      exact ⟨updatesPre5, Upd.fail e, rfl, by decide, rfl, rfl, Or.inr rfl⟩
  | ok d =>
      cases h8 : frames_result_at title o d with
      | error e =>
          rw [generate_video_frames_error title o d e h5 h8]
          exact ⟨updatesPre8, Upd.fail e, rfl, by decide, rfl, rfl,
            Or.inr rfl⟩
      | ok fr =>
          cases hc : (compile_video o.encR o.muxR).1 with
          | error e =>
              rw [generate_video_compile_error title o d fr e h5 h8 hc]
              exact ⟨updatesPre9, Upd.fail e, rfl, by decide, rfl, rfl,
                Or.inr rfl⟩
          | ok p =>
              rw [generate_video_success title o d fr p h5 h8 hc]
              exact ⟨updatesPre9 ++ [Upd.proc 9, Upd.proc 10],
                ⟨10, 100, .completed, none⟩, by decide, by decide, rfl, rfl,
                Or.inl rfl⟩

/-- `_compile_video` returns a path only on the double-success branch, and
that path is `video.mp4`. -/
theorem compile_video_ok_inv (a b : Option String) (q : PathT)
    (h : (compile_video a b).1 = .ok q) :
    q = .output ∧ a = none ∧ b = none := by
  cases a <;> cases b <;> simp_all [compile_video]

/-- C3: progress is persisted as `int((step/10)*100) = 10·step`.  On the
success path the persisted sequence is exactly
`10,10,20,20,…,100,100` — i.e. `(completed_stage_count/10)×100` right after
each stage completes — ending with the `completed` record.  In every run,
all updates before the terminal one carry `processing` status and
non-decreasing progress, so any subsequence a poller can observe before the
terminal state is non-decreasing.  (The terminal `failed` update itself
resets progress to 0, at the same write that exposes the terminal state.) -/
theorem C3_progress_monotonic (title : String) (o : Oracles) :
    ((generate_video title o).status = .completed →
      (generate_video title o).updates.map Upd.progress =
        [10, 10, 20, 20, 30, 30, 40, 40, 50, 50, 60, 60, 70, 70, 80, 80,
         90, 90, 100, 100] ∧
      (generate_video title o).updates.map Upd.status =
        List.replicate 19 VStatus.processing ++ [VStatus.completed]) ∧
    (∀ u ∈ (generate_video title o).updates.dropLast,
      u.status = .processing) ∧
    List.Chain' (· ≤ ·)
      ((generate_video title o).updates.dropLast.map Upd.progress) ∧
    (∀ obs : List ℕ,
      List.Sublist obs
        ((generate_video title o).updates.dropLast.map Upd.progress) →
      List.Chain' (· ≤ ·) obs) := by
  cases h5 : tts_result title o with
  | error e =>
      rw [generate_video_tts_error title o e h5]
      dsimp only
      rw [List.dropLast_concat]
      have hch : List.Chain' (· ≤ ·) (updatesPre5.map Upd.progress) := by
        rw [(by decide : updatesPre5.map Upd.progress =
          [10, 10, 20, 20, 30, 30, 40, 40, 50])]
        simp [List.chain'_cons]
      refine ⟨?_, by decide, hch, fun obs hobs => hch.sublist hobs⟩
      intro h
      exact absurd h (by decide)
  | ok d =>
      cases h8 : frames_result_at title o d with
      | error e =>
          rw [generate_video_frames_error title o d e h5 h8]
          dsimp only
          rw [List.dropLast_concat]
          have hch : List.Chain' (· ≤ ·) (updatesPre8.map Upd.progress) := by
            rw [(by decide : updatesPre8.map Upd.progress =
              [10, 10, 20, 20, 30, 30, 40, 40, 50, 50, 60, 60, 70, 70, 80])]
            simp [List.chain'_cons]
          refine ⟨?_, by decide, hch, fun obs hobs => hch.sublist hobs⟩
          intro h
          exact absurd h (by decide)
      | ok fr =>
          cases hc : (compile_video o.encR o.muxR).1 with
          | error e =>
              rw [generate_video_compile_error title o d fr e h5 h8 hc]
              dsimp only
              rw [List.dropLast_concat]
              have hch : List.Chain' (· ≤ ·)
                  (updatesPre9.map Upd.progress) := by
                rw [(by decide : updatesPre9.map Upd.progress =
                  [10, 10, 20, 20, 30, 30, 40, 40, 50, 50, 60, 60, 70, 70,
                   80, 80, 90])]
                simp [List.chain'_cons]
              refine ⟨?_, by decide, hch,
                fun obs hobs => hch.sublist hobs⟩
              intro h
              exact absurd h (by decide)
          | ok p =>
              rw [generate_video_success title o d fr p h5 h8 hc]
              dsimp only
              have hch : List.Chain' (· ≤ ·)
                  (updatesSuccess.dropLast.map Upd.progress) := by
                rw [(by decide : updatesSuccess.dropLast.map Upd.progress =
                  [10, 10, 20, 20, 30, 30, 40, 40, 50, 50, 60, 60, 70, 70,
                   80, 80, 90, 90, 100])]
                simp [List.chain'_cons]
              refine ⟨fun _ => ⟨by decide, by decide⟩, by decide, hch,
                fun obs hobs => hch.sublist hobs⟩

/-- Witness for C3: on the all-success run the persisted progress sequence
is exactly the stage ladder, and the sampled subsequence `[10, 100]` is
non-decreasing. -/
theorem C3_progress_monotonic_witness :
    ((generate_video "T" oracleAllOk).updates.map Upd.progress =
      [10, 10, 20, 20, 30, 30, 40, 40, 50, 50, 60, 60, 70, 70, 80, 80,
       90, 90, 100, 100] ∧
     (generate_video "T" oracleAllOk).updates.map Upd.status =
      List.replicate 19 VStatus.processing ++ [VStatus.completed]) ∧
    List.Chain' (· ≤ ·) [10, 100] :=
  ⟨(C3_progress_monotonic "T" oracleAllOk).1 (by decide),
   ((C3_progress_monotonic "T" oracleAllOk).2.2.2 _
      (List.Sublist.refl _)).sublist (by decide)⟩

/-- C2, counterexample: the KeyPointExtraction stage's generative call
raises, the helper's `except` branch swallows the exception and returns
`[]`, and the run continues through every remaining stage to a `completed`
terminal status — a mandatory-stage failure neither aborts the pipeline nor
fails the job. -/
theorem C2_keypoint_failure_not_fatal :
    oracleKeyPointFailure.keyPointsR = .error "Gemini down" ∧
    extract_key_points oracleKeyPointFailure.keyPointsR = [] ∧
    (generate_video "Quantum Computing" oracleKeyPointFailure).status =
      VStatus.completed ∧
    (generate_video "Quantum Computing" oracleKeyPointFailure).executed =
      [1, 2, 3, 4, 5, 6, 7, 8, 9, 10] :=
  ⟨rfl, by decide, by decide, by decide⟩

/-- C2, amended: only the TTS (step 5), frame-rendering (step 8) and
compilation (step 9) stages abort the run: each failure ends the job
`failed` with the raised message recorded verbatim and no later stage
entered, and the job completes exactly when all three succeed.  The
generative stages 2, 3, 4 and 6 catch their own exceptions and degrade
(`[]`, the title, the script, placeholder concepts); step 7 degrades to an
empty description. -/
theorem C2_amended_raising_stages (title : String) (o : Oracles) :
    ((generate_video title o).status = .completed ↔
      compile_result title o = .ok PathT.output) ∧
    (∀ e, tts_result title o = .error e →
      (generate_video title o).status = .failed ∧
      (generate_video title o).error_message = some e ∧
      (generate_video title o).executed = [1, 2, 3, 4, 5]) ∧
    (∀ d e, tts_result title o = .ok d →
      frames_result_at title o d = .error e →
      (generate_video title o).status = .failed ∧
      (generate_video title o).error_message = some e ∧
      (generate_video title o).executed = [1, 2, 3, 4, 5, 6, 7, 8]) ∧
    (∀ d fr e, tts_result title o = .ok d →
      frames_result_at title o d = .ok fr →
      (compile_video o.encR o.muxR).1 = .error e →
      (generate_video title o).status = .failed ∧
      (generate_video title o).error_message = some e ∧
      (generate_video title o).executed = [1, 2, 3, 4, 5, 6, 7, 8, 9]) ∧
    ((generate_video title o).status = .completed ∨
      (generate_video title o).status = .failed) := by
  cases h5 : tts_result title o with
  | error e0 =>
      rw [generate_video_tts_error title o e0 h5]
      dsimp only
      refine ⟨?_, ?_, ?_, ?_, Or.inr rfl⟩
      · simp [compile_result, frames_result, h5]
      · intro e he
        injection he with h
        subst h
        exact ⟨rfl, rfl, rfl⟩
      · intro d e h5' _
        simp at h5'
      · intro d fr e h5' _ _
        simp at h5'
  | ok d0 =>
      cases h8 : frames_result_at title o d0 with
      | error e0 =>
          rw [generate_video_frames_error title o d0 e0 h5 h8]
          dsimp only
          refine ⟨?_, ?_, ?_, ?_, Or.inr rfl⟩
          · simp [compile_result, frames_result, h5, h8]
          · intro e he
            simp at he
          · intro d e h5' h8'
            injection h5' with hd
            subst hd
            rw [h8] at h8'
            injection h8' with he
            subst he
            exact ⟨rfl, rfl, rfl⟩
          · intro d fr e h5' h8' _
            injection h5' with hd
            subst hd
            rw [h8] at h8'
            simp at h8'
      | ok fr0 =>
          cases hc : (compile_video o.encR o.muxR).1 with
          | error e0 =>
              rw [generate_video_compile_error title o d0 fr0 e0 h5 h8 hc]
              dsimp only
              refine ⟨?_, ?_, ?_, ?_, Or.inr rfl⟩
              · simp [compile_result, frames_result, h5, h8, hc]
              · intro e he
                simp at he
              · intro d e h5' h8'
                injection h5' with hd
                subst hd
                rw [h8] at h8'
                simp at h8'
              · intro d fr e h5' h8' hc'
                injection hc' with he
                subst he
                exact ⟨rfl, rfl, rfl⟩
          | ok p =>
              obtain ⟨hp, -, -⟩ := compile_video_ok_inv o.encR o.muxR p hc
              subst hp
              rw [generate_video_success title o d0 fr0 .output h5 h8 hc]
              dsimp only
              refine ⟨?_, ?_, ?_, ?_, Or.inl rfl⟩
              · simp [compile_result, frames_result, h5, h8, hc]
              · intro e he
                simp at he
              · intro d e h5' h8'
                injection h5' with hd
                subst hd
                rw [h8] at h8'
                simp at h8'
              · intro d fr e h5' h8' hc'
                simp at hc'

/-- Witness for the amended C2: a TTS failure ends the job `failed` with
the raised message recorded verbatim, the frame and compile stages never
entered. -/
theorem C2_amended_raising_stages_witness :
    (generate_video "T" oracleTtsFailure).status = VStatus.failed ∧
    (generate_video "T" oracleTtsFailure).error_message =
      some "Kokoro timeout" ∧
    (generate_video "T" oracleTtsFailure).executed = [1, 2, 3, 4, 5] :=
  (C2_amended_raising_stages "T" oracleTtsFailure).2.1 "Kokoro timeout" rfl

/-- `handoffEntry` is the completed entry exactly when the run completed. -/
theorem handoffEntry_completed_iff (r : RunResult) :
    handoffEntry r = .hCompleted ↔ r.status = .completed := by
  cases hr : r.status <;> simp [handoffEntry, hr]

/-- `handoffEntry` is a failed entry only for non-completed runs. -/
theorem handoffEntry_failed_status (r : RunResult) (e : String)
    (h : handoffEntry r = .hFailed e) : r.status ≠ .completed := by
  intro hc
  rw [(handoffEntry_completed_iff r).mpr hc] at h
  exact nomatch h

/-- Case analysis on a suffix of `dbWrite`-mapped updates followed by the
final `dbWrite` and the handoff write. -/
theorem suffix_cases_aux (lastU : Upd) (he : HEntry) :
    ∀ (pre : List Upd) (q : List WAct),
      q <:+ (pre.map WAct.dbWrite ++
        [WAct.dbWrite lastU, WAct.handoffW he]) →
      q = [] ∨ q = [WAct.handoffW he] ∨
      (∃ u rest, q = WAct.dbWrite u :: rest ∧
        rest <:+ (pre.map WAct.dbWrite ++
          [WAct.dbWrite lastU, WAct.handoffW he]) ∧
        (u ∈ pre ∨ (u = lastU ∧ rest = [WAct.handoffW he]))) := by
  intro pre
  induction pre with
  | nil =>
      intro q hq
      simp only [List.map_nil, List.nil_append] at hq
      rcases List.suffix_cons_iff.mp hq with h | h
      · exact Or.inr (Or.inr ⟨lastU, [WAct.handoffW he], h,
          List.suffix_cons (WAct.dbWrite lastU) _, Or.inr ⟨rfl, rfl⟩⟩)
      · rcases List.suffix_cons_iff.mp h with h2 | h2
        · exact Or.inr (Or.inl h2)
        · rw [List.suffix_nil] at h2
          exact Or.inl h2
  | cons p pre' ih =>
      intro q hq
      simp only [List.map_cons, List.cons_append] at hq
      rcases List.suffix_cons_iff.mp hq with h | h
      · exact Or.inr (Or.inr ⟨p, _, h, List.suffix_cons (WAct.dbWrite p) _,
          Or.inl (List.mem_cons_self _ _)⟩)
      · rcases ih q h with h2 | h2 | ⟨u, rest, hq2, hrest, hu⟩
        · exact Or.inl h2
        · exact Or.inr (Or.inl h2)
        · refine Or.inr (Or.inr ⟨u, rest, hq2, ?_, ?_⟩)
          · simp only [List.map_cons, List.cons_append]
            exact hrest.trans (List.suffix_cons _ _)
          · rcases hu with h3 | h3
            · exact Or.inl (List.mem_cons_of_mem _ h3)
            · exact Or.inr h3

/-- Case analysis on the worker's remaining queue: empty, exactly the
handoff write, or headed by a row update that is either a `processing`
update or the final terminal update followed only by the handoff write. -/
theorem workerActions_suffix_cases (title : String) (o : Oracles)
    (q : List WAct) (hq : q <:+ workerActions title o) :
    q = [] ∨
    q = [WAct.handoffW (handoffEntry (generate_video title o))] ∨
    (∃ u rest, q = WAct.dbWrite u :: rest ∧
      rest <:+ workerActions title o ∧
      (u.status = .processing ∨
        (u.status = (generate_video title o).status ∧
         rest = [WAct.handoffW (handoffEntry (generate_video title o))]))) := by
  obtain ⟨pre, lastU, hupd, hpre, hlast, -, -⟩ := generate_video_shape title o
  have hacts : workerActions title o =
      pre.map WAct.dbWrite ++
        [WAct.dbWrite lastU,
         WAct.handoffW (handoffEntry (generate_video title o))] := by
    rw [workerActions, hupd]
    simp
  rw [hacts] at hq
  rcases suffix_cases_aux lastU (handoffEntry (generate_video title o)) pre
      q hq with h | h | ⟨u, rest, hq2, hrest, hu⟩
  · exact Or.inl h
  · exact Or.inr (Or.inl h)
  · refine Or.inr (Or.inr ⟨u, rest, hq2, by rw [hacts]; exact hrest, ?_⟩)
    rcases hu with h3 | ⟨h3, h4⟩
    · exact Or.inl (hpre u h3)
    · exact Or.inr ⟨by rw [h3]; exact hlast, h4⟩

/-- The initial shared state satisfies the invariant. -/
theorem InvS_init (title : String) (o : Oracles) :
    InvS title o (initSys title o) := by
  refine ⟨List.suffix_refl _, Or.inl rfl, fun h => absurd rfl h, fun h => ?_⟩
  rcases h with h | h <;> simp [initSys] at h

/-- Every operation preserves the invariant. -/
theorem InvS_step (title : String) (o : Oracles) (s : Sys) (e : Ev)
    (hinv : InvS title o s) : InvS title o (stepSys s e) := by
  obtain ⟨hsuf, hcons, hlastq, hterm⟩ := hinv
  obtain ⟨-, -, -, -, -, -, htermrun⟩ := generate_video_shape title o
  cases e with
  | cancel => exact ⟨hsuf, hcons, hlastq, hterm⟩
  | poll =>
      cases hh : s.handoffSt with
      | none =>
          simp only [stepSys, hh]
          exact ⟨hsuf, hcons, hlastq, hterm⟩
      | some h =>
          have hhe : h = handoffEntry (generate_video title o) := by
            rcases hcons with hc | hc
            · rw [hh] at hc; exact nomatch hc
            · rw [hh] at hc; injection hc
          have hq0 : s.queue = [] := hlastq (by rw [hh]; exact nofun)
          cases h with
          | hCompleted =>
              simp only [stepSys, hh]
              refine ⟨hsuf, Or.inr (by rw [← hhe]),
                fun _ => hq0, fun _ => ⟨?_, Or.inl hq0⟩⟩
              exact ((handoffEntry_completed_iff _).mp hhe.symm).symm
          | hFailed err =>
              simp only [stepSys, hh]
              refine ⟨hsuf, Or.inr (by rw [← hhe]),
                fun _ => hq0, fun _ => ⟨?_, Or.inl hq0⟩⟩
              have hnc := handoffEntry_failed_status _ err hhe.symm
              rcases htermrun with h1 | h1
              · exact absurd h1 hnc
              · exact h1.symm
  | workerStep dropped =>
      rcases workerActions_suffix_cases title o s.queue hsuf
        with hq | hq | ⟨u, rest, hq, hrest, hu⟩
      · simp only [stepSys, hq]
        exact ⟨hsuf, hcons, hlastq, hterm⟩
      · simp only [stepSys, hq]
        refine ⟨List.nil_suffix, Or.inr rfl, fun _ => rfl, fun ht => ?_⟩
        obtain ⟨h1, -⟩ := hterm ht
        exact ⟨h1, Or.inl rfl⟩
      · simp only [stepSys, hq]
        refine ⟨hrest, hcons, ?_, ?_⟩
        · intro hne
          have := hlastq hne
          rw [hq] at this
          exact nomatch this
        · intro ht
          cases dropped with
          | true =>
              rw [if_pos rfl] at ht ⊢
              obtain ⟨-, h2⟩ := hterm ht
              rcases h2 with h2 | h2 <;> rw [hq] at h2 <;> exact nomatch h2
          | false =>
              rw [if_neg (by decide : ¬(false = true))] at ht ⊢
              rcases hu with hproc | ⟨hru, hrest2⟩
              · exfalso
                have h3 : (applyUpd s.db u).status = u.status := rfl
                rw [h3, hproc] at ht
                rcases ht with h | h <;> exact nomatch h
              · have h3 : (applyUpd s.db u).status = u.status := rfl
                rw [h3, hru]
                exact ⟨rfl, Or.inr hrest2⟩

/-- From a terminal persisted status, no single operation changes the
status. -/
theorem stepSys_terminal_fixed (title : String) (o : Oracles) (s : Sys)
    (e : Ev) (hinv : InvS title o s) (ht : TerminalS s.db.status) :
    (stepSys s e).db.status = s.db.status := by
  obtain ⟨hsuf, hcons, hlastq, hterm⟩ := hinv
  obtain ⟨hst, hq⟩ := hterm ht
  cases e with
  | cancel => rfl
  | poll =>
      cases hh : s.handoffSt with
      | none => simp only [stepSys, hh]
      | some h =>
          have hhe : h = handoffEntry (generate_video title o) := by
            rcases hcons with hc | hc
            · rw [hh] at hc; exact nomatch hc
            · rw [hh] at hc; injection hc
          cases h with
          | hCompleted =>
              simp only [stepSys, hh]
              rw [hst, ← (handoffEntry_completed_iff _).mp hhe.symm]
          | hFailed err =>
              simp only [stepSys, hh]
              have hnc := handoffEntry_failed_status _ err hhe.symm
              obtain ⟨-, -, -, -, -, -, htermrun⟩ :=
                generate_video_shape title o
              rcases htermrun with h1 | h1
              · exact absurd h1 hnc
              · rw [hst, h1]
  | workerStep dropped =>
      rcases hq with hq | hq
      · simp only [stepSys, hq]
      · simp only [stepSys, hq]

/-- From a terminal persisted status, no sequence of operations changes the
status. -/
theorem runEvents_terminal_fixed (title : String) (o : Oracles) :
    ∀ (evs : List Ev) (s : Sys), InvS title o s → TerminalS s.db.status →
      (runEvents s evs).db.status = s.db.status := by
  intro evs
  induction evs with
  | nil => intro s _ _; rfl
  | cons e evs ih =>
      intro s hinv ht
      have h1 := stepSys_terminal_fixed title o s e hinv ht
      have h2 := InvS_step title o s e hinv
      have ht' : TerminalS (stepSys s e).db.status := by rw [h1]; exact ht
      have : runEvents s (e :: evs) = runEvents (stepSys s e) evs := rfl
      rw [this, ih (stepSys s e) h2 ht', h1]

/-- The invariant holds in every reachable state. -/
theorem InvS_reachable (title : String) (o : Oracles) :
    ∀ (evs : List Ev) (s : Sys), InvS title o s →
      InvS title o (runEvents s evs) := by
  intro evs
  induction evs with
  | nil => intro s h; exact h
  | cons e evs ih =>
      intro s h
      exact ih (stepSys s e) (InvS_step title o s e h)

/-- C4: once a job's persisted status is terminal (`completed` or
`failed`), no subsequent interleaving of worker writes (persisted or
dropped), status polls merging the `_completed_videos` handoff entry, and
cancel requests ever changes the persisted status: the worker's queue can
only repeat the same terminal value, the handoff merge rewrites the same
terminal value, and `cancel_generation` performs no write at all (its
`gen_service.mark_failed` call raises `AttributeError` — the method does
not exist on `VideoGenerationService` — which the handler turns into an
HTTP 500 before any mutation). -/
theorem C4_terminal_status_stable (title : String) (o : Oracles) (s : Sys)
    (evs : List Ev)
    (hreach : ∃ evs0, runEvents (initSys title o) evs0 = s)
    (hterm : TerminalS s.db.status) :
    (runEvents s evs).db.status = s.db.status := by
  obtain ⟨evs0, rfl⟩ := hreach
  exact runEvents_terminal_fixed title o evs
    (runEvents (initSys title o) evs0)
    (InvS_reachable title o evs0 (initSys title o) (InvS_init title o))
    hterm

/-- Witness for C4: after the worker of a TTS-failing run drains its whole
queue the job is `failed`, and a subsequent poll (which merges the handoff
entry) followed by a cancel leaves the status unchanged. -/
theorem C4_terminal_status_stable_witness :
    (runEvents
        (runEvents (initSys "T" oracleTtsFailure)
          (List.replicate 11 (Ev.workerStep false)))
        [Ev.poll, Ev.cancel]).db.status =
      (runEvents (initSys "T" oracleTtsFailure)
        (List.replicate 11 (Ev.workerStep false))).db.status :=
  C4_terminal_status_stable "T" oracleTtsFailure
    (runEvents (initSys "T" oracleTtsFailure)
      (List.replicate 11 (Ev.workerStep false)))
    [Ev.poll, Ev.cancel]
    ⟨List.replicate 11 (Ev.workerStep false), rfl⟩
    (Or.inr (by decide))

end NLV
